import Mathlib

/-!
# Verification of `httpolice/report.py`

A shallow embedding of the report-rendering module of HTTPolice.  Python
objects become Lean structures; Python byte strings become `List Nat`;
Python unicode strings become `String` (or `List Char` inside the body
pipeline, where code-point counting matters).  Object identity (`id(obj)`)
is modelled by explicit `ident : Nat` fields carried by the data, which is
faithful because the report tree is immutable for the lifetime of a render.
The rendering context `ctx` of the Python code is only ever used to resolve
`Ref` pieces, so the embedding bakes each `Ref`'s resolution (its resolved
target object and its resolved contents) directly into the piece.
-/

/-! ## Small text utilities -/

/-- ASCII whitespace, modelling Python's `\s` character class on the
whitespace characters that actually occur in notice text. -/
def isSpaceChar (c : Char) : Bool :=
  c == ' ' || c == '\t' || c == '\n' || c == '\r' ||
  c == Char.ofNat 11 || c == Char.ofNat 12

/-- Python `unicode.strip()`: drop leading and trailing whitespace. -/
def stripChars (cs : List Char) : List Char :=
  ((cs.dropWhile isSpaceChar).reverse.dropWhile isSpaceChar).reverse

/-- Python `unicode.strip()` at the `String` level. -/
def pyStrip (s : String) : String :=
  String.mk (stripChars s.data)

mutual

/-- Python `re.sub(r'\s+', u' ', s)`: collapse every run of whitespace to a
single space.  On seeing a whitespace character, one space is emitted and
the rest of the run is consumed by `collapseCharsInWs`. -/
def collapseChars : List Char → List Char
  | [] => []
  | c :: cs =>
    if isSpaceChar c then ' ' :: collapseCharsInWs cs
    else c :: collapseChars cs

/-- Inside a whitespace run: skip further whitespace, the space for the
run having already been emitted. -/
def collapseCharsInWs : List Char → List Char
  | [] => []
  | c :: cs =>
    if isSpaceChar c then collapseCharsInWs cs
    else c :: collapseChars cs

end

/-- Whitespace collapsing at the `String` level. -/
def collapseWs (s : String) : String :=
  String.mk (collapseChars s.data)

/-! ## Byte-string decoders

`httpolice` decodes Python byte strings with the codecs module.  The
decoders below model CPython's behaviour: `utf8Decode onErr` is UTF-8
decoding where every maximal invalid subpart is replaced by `onErr`
(`['�']` for the `'replace'` error handler, `[]` for `'ignore'`). -/

/-- Is `b` a UTF-8 continuation byte (`0x80..0xBF`)? -/
def isCont (b : Nat) : Bool := 0x80 ≤ b && b ≤ 0xBF

/-- UTF-8 decoding, parameterised by the error handler's output `onErr`.
Models CPython's `bytes.decode('utf-8', 'replace' / 'ignore')`: on an
invalid sequence, `onErr` is emitted and decoding resumes at the first
byte that did not fit the sequence. -/
def utf8Decode (onErr : List Char) : List Nat → List Char
  | [] => []
  | b :: rest =>
    if b < 0x80 then Char.ofNat b :: utf8Decode onErr rest
    else if b < 0xC2 then onErr ++ utf8Decode onErr rest
    else if b < 0xE0 then
      -- two-byte sequence
      match rest with
      | [] => onErr
      | b1 :: rest1 =>
        if isCont b1 then
          Char.ofNat (((b - 0xC0) * 64) + (b1 - 0x80)) :: utf8Decode onErr rest1
        else onErr ++ utf8Decode onErr (b1 :: rest1)
    else if b < 0xF0 then
      -- three-byte sequence; reject overlongs (E0 A0..) and surrogates (ED 80..9F)
      match rest with
      | [] => onErr
      | b1 :: rest1 =>
        if isCont b1 && (b != 0xE0 || 0xA0 ≤ b1) && (b != 0xED || b1 ≤ 0x9F) then
          match rest1 with
          | [] => onErr
          | b2 :: rest2 =>
            if isCont b2 then
              Char.ofNat ((b - 0xE0) * 4096 + (b1 - 0x80) * 64 + (b2 - 0x80)) ::
                utf8Decode onErr rest2
            else onErr ++ utf8Decode onErr (b2 :: rest2)
        else onErr ++ utf8Decode onErr (b1 :: rest1)
    else if b < 0xF5 then
      -- four-byte sequence; reject overlongs (F0 90..) and > U+10FFFF (F4 ..8F)
      match rest with
      | [] => onErr
      | b1 :: rest1 =>
        if isCont b1 && (b != 0xF0 || 0x90 ≤ b1) && (b != 0xF4 || b1 ≤ 0x8F) then
          match rest1 with
          | [] => onErr
          | b2 :: rest2 =>
            if isCont b2 then
              match rest2 with
              | [] => onErr
              | b3 :: rest3 =>
                if isCont b3 then
                  Char.ofNat ((b - 0xF0) * 262144 + (b1 - 0x80) * 4096 +
                              (b2 - 0x80) * 64 + (b3 - 0x80)) ::
                    utf8Decode onErr rest3
                else onErr ++ utf8Decode onErr (b3 :: rest3)
            else onErr ++ utf8Decode onErr (b2 :: rest2)
        else onErr ++ utf8Decode onErr (b1 :: rest1)
    else onErr ++ utf8Decode onErr rest

/-- `value.decode('ascii', 'ignore')`: keep the ASCII bytes, drop the rest. -/
def asciiDecodeIgnore (bs : List Nat) : List Char :=
  bs.filterMap (fun b => if b < 128 then some (Char.ofNat b) else none)

/-- `bytes.decode('ascii', 'replace')`: non-ASCII bytes become U+FFFD. -/
def asciiDecodeReplace (bs : List Nat) : List Char :=
  bs.map (fun b => if b < 128 then Char.ofNat b else '�')

/-- `bytes.decode('utf-8', 'ignore')`. -/
def utf8DecodeIgnore (bs : List Nat) : List Char := utf8Decode [] bs

/-- `bytes.decode('utf-8', 'replace')`. -/
def utf8DecodeReplace (bs : List Nat) : List Char := utf8Decode ['�'] bs

/-- `bytes.decode('latin-1')` never fails: each byte is its code point. -/
def latin1Decode (bs : List Nat) : List Char := bs.map Char.ofNat

/-! ## The codecs registry

Models the part of Python's `codecs.lookup` that `displayable_body` relies
on: alias normalisation, the canonical `codec.name`, and the `'replace'`
decode function.  Unknown encodings yield `none` (Python raises
`LookupError`, which `displayable_body` catches). -/

/-- A looked-up codec: its canonical name and its `'replace'`-mode decoder. -/
structure Codec where
  name : String
  decode : List Nat → List Char

/-- Modelled from the Python `encodings.normalize_encoding` helper:
lowercase and turn separators into underscores. -/
def normEnc (s : String) : String :=
  String.mk (s.data.map (fun c =>
    if c == '-' || c == ' ' || c == '.' then '_' else c.toLower))

/-- The UTF-8 codec (canonical name `utf-8`). -/
def utf8Codec : Codec := ⟨"utf-8", utf8DecodeReplace⟩

/-- The ASCII codec (canonical name `ascii`). -/
def asciiCodec : Codec := ⟨"ascii", asciiDecodeReplace⟩

/-- The Latin-1 codec (canonical name `iso8859-1`). -/
def latin1Codec : Codec := ⟨"iso8859-1", latin1Decode⟩

/-- Modelled from Python's `codecs.lookup`, restricted to a representative
alias table; any name outside the table raises `LookupError`, i.e. `none`. -/
def codecsLookup (s : String) : Option Codec :=
  let n := normEnc s
  if n == "utf_8" || n == "utf8" || n == "u8" || n == "utf" then some utf8Codec
  else if n == "ascii" || n == "us_ascii" || n == "646" then some asciiCodec
  else if n == "latin_1" || n == "iso_8859_1" || n == "iso8859_1" ||
          n == "8859" || n == "latin1" || n == "latin" || n == "l1" ||
          n == "cp819" then some latin1Codec
  else none

/-! ## Reference targets (`reference_targets`) -/

/-- The values a `Ref` piece can resolve to, as far as `reference_targets`
distinguishes them: a `HeaderView` (with the identities of its contributing
raw entries), a Python list, or any other object (with its own identity). -/
inductive RVal where
  | headerView (entryIds : List Nat)
  | seq (items : List RVal)
  | atom (ident : Nat)

mutual

/-- `reference_targets(obj)` from `report.py`: a `HeaderView` yields one
anchor per contributing entry; a list yields the concatenation over its
items; anything else yields its own anchor. -/
def reference_targets : RVal → List String
  | .headerView es => es.map (fun e => "#" ++ toString e)
  | .seq items => reference_targets_list items
  | .atom i => ["#" ++ toString i]

/-- The list comprehension `[ref for item in obj for ref in
reference_targets(item)]`. -/
def reference_targets_list : List RVal → List String
  | [] => []
  | x :: xs => reference_targets x ++ reference_targets_list xs

end

/-! ## The piece model -/

/-- The bibliographic info object of a `Citation`: its display text
(`unicode(info)`) and its URL. -/
structure CitInfo where
  text : String
  url : String

/-- A token from the `known` registry (method, status code, header name,
…): its Python type name, its display text (`unicode(obj)`), and its
identity. -/
structure Tok where
  ty : String
  text : String
  ident : Nat

/-- The renderable piece variants dispatched on by `piece_to_text` /
`piece_to_html`.  A `ref` piece carries its resolution in the rendering
context: the resolved target object and the resolved contents. -/
inductive Piece where
  | ref (target : RVal) (contents : List Piece)
  | citation (contents : List Piece) (info : CitInfo)
  | wrapper (contents : List Piece)
  | parametrized (item : Piece)
  | named (name : Piece)
  | known (tok : Tok)
  | plain (text : String)

mutual

/-- `piece_to_text(piece, ctx)` from `report.py`.  A `known` token has no
`contents`/`name` attribute and is not `Parametrized`, so in text mode it
falls through to the `unicode(piece)` fallback, as does a plain value. -/
def piece_to_text : Piece → String
  | .ref _ cs => pieces_to_text cs
  | .citation cs info =>
    let quote := collapseWs (pyStrip (pieces_to_text cs))
    if quote ≠ "" then "“" ++ quote ++ "” (" ++ info.text ++ ")"
    else info.text
  | .wrapper cs => pieces_to_text cs
  | .parametrized p => piece_to_text p
  | .named p => piece_to_text p
  | .known tok => tok.text
  | .plain s => s

/-- `pieces_to_text(pieces, ctx)`: the concatenation over the pieces. -/
def pieces_to_text : List Piece → String
  | [] => ""
  | p :: ps => piece_to_text p ++ pieces_to_text ps

end

/-! ## Notices -/

/-- A notice from the catalog: id, severity word, short severity code,
title pieces, and explanation paragraphs. -/
structure Notice where
  ident : Nat
  severity : String
  severity_short : String
  title : List Piece
  explanation : List (List Piece)

/-- `notice_to_text(the_notice, ctx)` from `report.py`. -/
def notice_to_text (n : Notice) : String :=
  let info := toString n.ident ++ " " ++ n.severity_short
  let title := pyStrip (pieces_to_text n.title)
  let explanation :=
    String.intercalate "\n" (n.explanation.map (fun para => pyStrip (pieces_to_text para)))
  "**** " ++ info ++ "    " ++ title ++ "\n" ++ explanation ++ "\n"

/-! ## The text report sink -/

/-- The state of a `TextReport` instance: the bytes written so far (as the
string they decode to, since UTF-8 encoding is injective) and the `written`
flag. -/
structure TextReport where
  out : String
  written : Bool

/-- A freshly constructed `TextReport` (its `__init__`). -/
def TextReport.fresh : TextReport := ⟨"", false⟩

/-- `TextReport.write`: append and mark the sink as written-to. -/
def TextReport.write (st : TextReport) (s : String) : TextReport :=
  ⟨st.out ++ s, true⟩

/-- `TextReport.write_more`: separate from earlier output by a blank line,
except on the very first write. -/
def TextReport.write_more (st : TextReport) (s : String) : TextReport :=
  if st.written then (st.write "\n").write s else st.write s

/-! ## The message data model -/

/-- A raw byte-string object with its identity (`id(obj)`); the Python
type is `str`. -/
structure BytesObj where
  ident : Nat
  bytes : List Nat

/-- A message body slot: absent (`None`), the `Unparseable` sentinel, or a
byte string. -/
inductive BodyVal where
  | absent
  | unparseable
  | bytes (b : BytesObj)

/-- One raw header or trailer entry: its identity and the identities of
its name token and value byte string. -/
structure HeaderEntry where
  ident : Nat
  name : Tok
  value : BytesObj

/-- One piece of a precomputed annotation of a header value: either a raw
byte-string piece (`isinstance(piece, str)`) or a known token. -/
inductive AnnPiece where
  | raw (b : BytesObj)
  | tok (t : Tok)

/-- The message fields shared by requests and responses.  `complaints` is
the list of notice ids attached to the node by the analyzer (the rendering
context of each complaint is baked into the catalog's pieces);
`collected_complaints` is modelled from the spec: the result of the
message's aggregating `collect_complaints()` step used by the hypertext
renderer.  `transfer_coding` / `content_coding` model the truthiness of
`msg.headers.transfer_encoding` / `content_encoding`, and `body_charset`
models `message.body_charset(msg)` (`none` for Python `None`). -/
structure Msg where
  ident : Nat
  header_entries : List HeaderEntry
  trailer_entries : Option (List HeaderEntry)
  body : BodyVal
  decoded_body : BodyVal
  transfer_coding : Bool
  content_coding : Bool
  body_charset : Option String
  annots : List ((Bool × Nat) × List AnnPiece)
  complaints : Option (List Nat)
  collected_complaints : Option (List Nat)

/-- A parsed request: message fields plus the request-line tokens. -/
structure Request where
  msg : Msg
  method : Tok
  target : Tok
  version : Tok

/-- A parsed response: message fields plus the status-line parts.  The
status code is a token whose text is its decimal form (`'%d' % status`),
and the reason phrase is a raw byte string. -/
structure Response where
  msg : Msg
  version : Tok
  status : Tok
  reason : BytesObj

/-- A request or response slot that is present: either the `Unparseable`
sentinel or a parsed value. -/
inductive Slot (α : Type) where
  | unparseable
  | ok (a : α)

/-- An exchange: a request slot (`none` models Python `None`), the
response slots (`none` models `None`), and exchange-level complaints. -/
structure Exchange where
  ident : Nat
  request : Option (Slot Request)
  responses : Option (List (Slot Response))
  complaints : Option (List Nat)

/-- A connection: its exchanges and the leftover unparsed bytes in each
direction. -/
structure Connection where
  ident : Nat
  exchanges : List Exchange
  unparsed_inbound : List Nat
  unparsed_outbound : List Nat

/-- The notice catalog `notice.notices`, passed explicitly. -/
def Catalog : Type := Nat → Notice

/-! ## The body display pipeline (`displayable_body`) -/

/-- The result of `displayable_body`: the body slot value it returns —
either passed through (absent / unparseable) or decoded to text. -/
inductive Disp where
  | absent
  | unparseable
  | text (cs : List Char)

/-- Modelled from the spec: a character the report considers
non-printable (a C0 control character or DEL), replaced by the
placeholder glyph. -/
def isNonprintableChar (c : Char) : Bool :=
  c.toNat < 0x20 || c.toNat == 0x7f

/-- `has_nonprintable(r)` from `httpolice.util.text` (modelled from the
spec: whether any character would be replaced). -/
def has_nonprintable (cs : List Char) : Bool :=
  cs.any isNonprintableChar

/-- `printable(r)` from `httpolice.util.text` (modelled from the spec:
replace every non-printable character with U+FFFD). -/
def printable (cs : List Char) : List Char :=
  cs.map (fun c => if isNonprintableChar c then '�' else c)

/-- The declared charset with Python's `or 'UTF-8'` default (both `None`
and the empty string fall back). -/
def charsetOf (m : Msg) : String :=
  match m.body_charset with
  | none => "UTF-8"
  | some c => if c = "" then "UTF-8" else c

/-- The codec `displayable_body` resolves: the looked-up codec, or UTF-8
when the lookup raises `LookupError`. -/
def resolvedCodec (m : Msg) : Codec :=
  (codecsLookup (charsetOf m)).getD utf8Codec

/-- Steps 2–6 of `displayable_body` for a present body `bs`: everything
from the Transfer-Encoding note up to (but not including) the 5000-point
truncation.  Returns the decoded, printable-forced text and the transform
notes accumulated so far. -/
def displayable_decoded (m : Msg) (bs : List Nat) : List Char × List String :=
  let ts : List String :=
    if m.transfer_coding then ["removing Transfer-Encoding"] else []
  let (r, ts) :=
    match m.decoded_body with
    | .bytes db =>
      let ts := ts ++ (if m.content_coding then ["removing Content-Encoding"] else [])
      let charset := charsetOf m
      let codec := resolvedCodec m
      let r := codec.decode db.bytes
      let ts := ts ++ (if codec.name ≠ "utf-8" then ["decoding from " ++ charset] else [])
      (r, ts)
    | _ => (utf8DecodeReplace bs, ts)
  if has_nonprintable r then
    (printable r, ts ++ ["replacing non-printable characters with the � sign"])
  else (r, ts)

/-- `displayable_body(msg)` from `report.py`: short-circuit an absent or
unparseable body, otherwise decode (steps 2–6) and truncate to 5000 code
points (step 7). -/
def displayable_body (m : Msg) : Disp × List String :=
  match m.body with
  | .absent => (.absent, [])
  | .unparseable => (.unparseable, [])
  | .bytes b =>
    let (r, ts) := displayable_decoded m b.bytes
    if 5000 < r.length then
      (.text (r.take 5000), ts ++ ["taking the first 5000 characters"])
    else (.text r, ts)

/-! ## The text renderer -/

/-- `TextReport.render_notices(node)`: one `write_more` per complaint, in
order, looking each notice up in the catalog. -/
def TextReport.render_notices (cat : Catalog) (st : TextReport)
    (complaints : Option (List Nat)) : TextReport :=
  (complaints.getD []).foldl (fun st nid => st.write_more (notice_to_text (cat nid))) st

/-- `TextReport.render_request_line`. -/
def TextReport.render_request_line (st : TextReport) (req : Request) : TextReport :=
  st.write_more (">> " ++ req.method.text ++ " " ++ req.target.text ++ " " ++
                 req.version.text ++ "\n")

/-- `TextReport.render_status_line`: the reason phrase is decoded as
UTF-8 with replacement. -/
def TextReport.render_status_line (st : TextReport) (resp : Response) : TextReport :=
  st.write_more ("<< " ++ resp.version.text ++ " " ++ resp.status.text ++ " " ++
                 String.mk (utf8DecodeReplace resp.reason.bytes) ++ "\n")

/-- The `++ NAME: VALUE` line the text renderer writes for one header or
trailer entry: the raw value is decoded as ASCII with undecodable bytes
dropped. -/
def header_line_text (e : HeaderEntry) : String :=
  "++ " ++ e.name.text ++ ": " ++ String.mk (asciiDecodeIgnore e.value.bytes) ++ "\n"

/-- `TextReport.render_message`: header entries, the body summary (an
empty byte string is falsy and produces no line), trailer entries, then
the message's complaints. -/
def TextReport.render_message (cat : Catalog) (st : TextReport) (m : Msg) : TextReport :=
  let st := m.header_entries.foldl (fun st e => st.write (header_line_text e)) st
  let st :=
    match m.body with
    | .unparseable => st.write "\n++ (body is unparseable)\n"
    | .bytes b =>
      if b.bytes.isEmpty then st
      else st.write ("\n++ (" ++ toString b.bytes.length ++
                     " bytes of payload body not shown)\n")
    | .absent => st
  let st := (m.trailer_entries.getD []).foldl (fun st e => st.write (header_line_text e)) st
  TextReport.render_notices cat st m.complaints

/-- The request-slot step of `TextReport.render_connection`: skipped when
the slot is `None`, the `render_unparseable` marker for the sentinel,
otherwise the request line followed by the message. -/
def TextReport.render_request_slot (cat : Catalog) (st : TextReport) :
    Option (Slot Request) → TextReport
  | none => st
  | some .unparseable => st.write_more "\n-- (unparseable)\n"
  | some (.ok req) =>
    TextReport.render_message cat (st.render_request_line req) req.msg

/-- The per-response step of `TextReport.render_connection`. -/
def TextReport.render_response_slot (cat : Catalog) (st : TextReport) :
    Slot Response → TextReport
  | .unparseable => st.write_more "\n-- (unparseable)\n"
  | .ok resp =>
    TextReport.render_message cat (st.render_status_line resp) resp.msg

/-- The per-exchange body of `TextReport.render_connection`: separator,
exchange complaints, request slot, response slots. -/
def TextReport.render_exchange (cat : Catalog) (st : TextReport)
    (exch : Exchange) : TextReport :=
  let st := st.write_more "================================\n"
  let st := TextReport.render_notices cat st exch.complaints
  let st := TextReport.render_request_slot cat st exch.request
  (exch.responses.getD []).foldl (TextReport.render_response_slot cat) st

/-- `TextReport.render_connection`: all exchanges, then the leftover
unparsed byte counts (the outbound one is written with `write`, not
`write_more`, exactly as in the source). -/
def TextReport.render_connection (cat : Catalog) (st : TextReport)
    (conn : Connection) : TextReport :=
  let st := conn.exchanges.foldl (TextReport.render_exchange cat) st
  let st :=
    if conn.unparsed_inbound.isEmpty then st
    else st.write_more ("++ " ++ toString conn.unparsed_inbound.length ++
                        " unparsed bytes remaining on the request stream\n")
  if conn.unparsed_outbound.isEmpty then st
  else st.write ("++ " ++ toString conn.unparsed_outbound.length ++
                 " unparsed bytes remaining on the response stream\n")

/-- `TextReport.render_all`. -/
def TextReport.render_all (cat : Catalog) (st : TextReport)
    (conns : List Connection) : TextReport :=
  conns.foldl (TextReport.render_connection cat) st

/-! ## The hypertext renderer

The `dominate` document tree is modelled by `HNode`: an element with a
tag, an attribute list (in the order the source supplies the attributes;
`dominate`'s `_class` keyword and a `class` key coming from `for_object`
are kept as separate entries in that order), and children.  Byte-identical
serialized output corresponds to equality of these trees, since the
serializer is a pure function of the tree. -/

/-- A node of the hypertext document tree. -/
inductive HNode where
  | elem (tag : String) (attrs : List (String × String)) (children : List HNode)
  | text (s : String)

/-- The tag of a node (`#text` for text nodes); used to compare node
shapes. -/
def HNode.tagOf : HNode → String
  | .elem t _ _ => t
  | .text _ => "#text"

/-- `H.attr(...)` inside a `with elem:` block: append an attribute to the
element. -/
def HNode.addAttr (a : String × String) : HNode → HNode
  | .elem t attrs cs => .elem t (attrs ++ [a]) cs
  | .text s => .text s

/-- `for_object(obj, extra_class)` from `report.py`: the `class` attribute
is the Python type name followed by a space and the extra class (so a
trailing space when the extra class is empty), and `id` is the object
identity. -/
def for_object (ty : String) (extra : String) (ident : Nat) : List (String × String) :=
  [("class", ty ++ " " ++ extra), ("id", toString ident)]

/-- The `known` registry as the hypertext renderer consults it:
`known.citation(obj)` and `known.title(obj, with_citation=True)`, passed
explicitly. -/
structure Reg where
  cite : Tok → Option CitInfo
  title : Tok → Option String

/-- `render_known(obj)` from `report.py`: a link when the registry has a
citation, else an inert styled span; a truthy title becomes a `title`
attribute. -/
def render_known (reg : Reg) (tok : Tok) : HNode :=
  let cls := "known known-" ++ tok.ty
  let el :=
    match reg.cite tok with
    | some c => HNode.elem "a" [("class", cls), ("href", c.url), ("target", "_blank")]
        [.text tok.text]
    | none => HNode.elem "span" [("class", cls)] [.text tok.text]
  match reg.title tok with
  | some t => if t = "" then el else el.addAttr ("title", t)
  | none => el

mutual

/-- `piece_to_html(piece, ctx)` from `report.py`.  Note the `Citation`
case: the bibliographic `cite`/link element is emitted first, and the
quoted contents (when the contents list is non-empty) follow it. -/
def piece_to_html (reg : Reg) : Piece → List HNode
  | .ref target cs =>
    [.elem "span" [("data-ref-to", String.intercalate ", " (reference_targets target))]
      (pieces_to_html reg cs)]
  | .citation cs info =>
    .elem "cite" [] [.elem "a" [("href", info.url), ("target", "_blank")] [.text info.text]]
      :: (if cs.isEmpty then []
          else [.elem "span" [] [.text ": "],
                .elem "q" [("cite", info.url)] (pieces_to_html reg cs)])
  | .wrapper cs => pieces_to_html reg cs
  | .parametrized p => piece_to_html reg p
  | .named p => piece_to_html reg p
  | .known tok => [render_known reg tok]
  | .plain s => [.elem "span" [] [.text s]]

/-- `pieces_to_html(pieces, ctx)`. -/
def pieces_to_html (reg : Reg) : List Piece → List HNode
  | [] => []
  | p :: ps => piece_to_html reg p ++ pieces_to_html reg ps

end

/-- `notice_to_html(the_notice, ctx, for_example)` from `report.py`. -/
def notice_to_html (reg : Reg) (n : Notice) (for_example : Bool) : HNode :=
  .elem "div" [("class", "notice notice-" ++ n.severity)] (
    .elem "p" [("class", "notice-heading")] (
      (if for_example then []
       else [HNode.elem "span" [("class", "notice-info")]
               [.elem "span" [("class", "notice-ident")] [.text (toString n.ident)],
                .elem "span" [] [.text " "],
                .elem "span" [("class", "notice-severity"), ("title", n.severity)]
                  [.text n.severity_short]],
             HNode.elem "span" [] [.text " "]])
      ++ [.elem "span" [("class", "notice-title")] (pieces_to_html reg n.title)])
    :: n.explanation.map (fun para =>
         HNode.elem "p" [("class", "notice-para")] (pieces_to_html reg para)))

/-- `HTMLReport.render_notices(complaints)`: nothing at all when the
complaint list is empty, else one `notices` div. -/
def HTMLReport.render_notices (cat : Catalog) (reg : Reg)
    (complaints : Option (List Nat)) : List HNode :=
  let cs := complaints.getD []
  if cs.isEmpty then []
  else [.elem "div" [("class", "notices")]
         (cs.map (fun nid => notice_to_html reg (cat nid) false))]

/-- `HTMLReport.render_annotated(pieces)`: a span per annotation piece; a
raw byte-string piece is decoded as UTF-8 with undecodable bytes dropped
and forced printable, a known piece goes through `render_known`. -/
def HTMLReport.render_annotated (reg : Reg) (pieces : List AnnPiece) : List HNode :=
  pieces.map (fun p =>
    match p with
    | .raw b =>
      .elem "span" (("class", "annotated-piece") :: for_object "str" "" b.ident)
        [.elem "span" [] [.text (String.mk (printable (utf8DecodeIgnore b.bytes)))]]
    | .tok t =>
      .elem "span" (("class", "annotated-piece") :: for_object t.ty "" t.ident)
        [render_known reg t])

/-- The value span contents for one header entry in
`HTMLReport.render_header_entries`: the precomputed annotation when one
exists for this `(from_trailer, index)` key, else the literal value
decoded as UTF-8 (dropping undecodable bytes) and forced printable. -/
def HTMLReport.header_value_html (reg : Reg) (m : Msg) (from_trailer : Bool)
    (i : Nat) (e : HeaderEntry) : List HNode :=
  match (m.annots.lookup (from_trailer, i)) with
  | some ann => HTMLReport.render_annotated reg ann
  | none => [.elem "span" [] [.text (String.mk (printable (utf8DecodeIgnore e.value.bytes)))]]

/-- `HTMLReport.render_header_entries(message, entries, from_trailer)`. -/
def HTMLReport.render_header_entries (reg : Reg) (m : Msg)
    (entries : List HeaderEntry) (from_trailer : Bool) : List HNode :=
  entries.enum.map (fun p =>
    HNode.elem "div" (for_object "HeaderEntry" "" p.2.ident)
      [.elem "span" (for_object p.2.name.ty "" p.2.name.ident) [render_known reg p.2.name],
       .elem "span" [] [.text ": "],
       .elem "span" (for_object "str" "" p.2.value.ident)
         (HTMLReport.header_value_html reg m from_trailer p.1 p.2)])

/-- `nicely_join` from `httpolice.util.text` (modelled from the spec: the
hint lists the applied transforms in prose, with `and` before the last). -/
def nicely_join : List String → String
  | [] => ""
  | [s] => s
  | ss => String.intercalate ", " ss.dropLast ++ " and " ++ ss.getLast!

/-- `HTMLReport.render_message(msg)`: header entries; the payload-body
review block when `displayable_body` yields a truthy (non-empty) text or
the unparseable hint; the trailer block when a trailer exists. -/
def HTMLReport.render_message (reg : Reg) (m : Msg) : List HNode :=
  HTMLReport.render_header_entries reg m m.header_entries false
  ++ (match displayable_body m with
      | (.unparseable, _) =>
        [.elem "div" [("class", "review-block")]
          [.elem "p" [("class", "hint")] [.text "Payload body is unavailable."]]]
      | (.text cs, transforms) =>
        if cs.isEmpty then []
        else
          match m.body with
          | .bytes b =>
            [.elem "div" (for_object "str" "review-block" b.ident)
              ((if transforms.isEmpty then []
                else [HNode.elem "p" [("class", "hint")]
                       [.text ("Payload body after " ++ nicely_join transforms ++ ":")]])
               ++ [.elem "div" [("class", "payload-body")] [.text (String.mk cs)]])]
          | _ => []  -- unreachable: `displayable_body` yields text only for a bytes body
      | (.absent, _) => [])
  ++ (match m.trailer_entries with
      | some tes =>
        if tes.isEmpty then []
        else [.elem "div" [("class", "review-block")]
               (.elem "p" [("class", "hint")] [.text "Header fields from the chunked trailer:"]
                :: HTMLReport.render_header_entries reg m tes true)]
      | none => [])

/-- `HTMLReport.render_request(req)`. -/
def HTMLReport.render_request (cat : Catalog) (reg : Reg) : Slot Request → List HNode
  | .unparseable => [.elem "p" [("class", "hint")] [.text "unparseable request"]]
  | .ok req =>
    [.elem "div" (for_object "Request" "" req.msg.ident)
      (.elem "div" [("class", "review")]
         ([.elem "h2" [] [.text "Request"],
           .elem "div" [("class", "request-line")]
             [.elem "span" (for_object req.method.ty "" req.method.ident)
                [render_known reg req.method],
              .elem "span" [] [.text " "],
              .elem "span" (("class", "request-target")
                            :: for_object req.target.ty "" req.target.ident)
                [.text req.target.text],
              .elem "span" [] [.text " "],
              .elem "span" (for_object req.version.ty "" req.version.ident)
                [.text req.version.text]]]
          ++ HTMLReport.render_message reg req.msg)
       :: HTMLReport.render_notices cat reg req.msg.collected_complaints
       ++ [.elem "br" [("class", "clear")] []])]

/-- `HTMLReport.render_response(resp)`: note that the reason span sits
inside the status span, as in the source. -/
def HTMLReport.render_response (cat : Catalog) (reg : Reg) : Slot Response → List HNode
  | .unparseable => [.elem "p" [("class", "hint")] [.text "unparseable response"]]
  | .ok resp =>
    [.elem "div" (for_object "Response" "" resp.msg.ident)
      (.elem "div" [("class", "review")]
         ([.elem "h2" [] [.text "Response"],
           .elem "div" [("class", "status-line")]
             [.elem "span" (for_object resp.version.ty "" resp.version.ident)
                [.text resp.version.text],
              .elem "span" [] [.text " "],
              .elem "span" (for_object resp.status.ty "" resp.status.ident)
                [render_known reg resp.status,
                 .elem "span" [] [.text " "],
                 .elem "span" (for_object "str" "" resp.reason.ident)
                   [.text (String.mk (printable (utf8DecodeIgnore resp.reason.bytes)))]]]]
          ++ HTMLReport.render_message reg resp.msg)
       :: HTMLReport.render_notices cat reg resp.msg.collected_complaints
       ++ [.elem "br" [("class", "clear")] []])]

/-- `HTMLReport.render_connection(conn)`. -/
def HTMLReport.render_connection (cat : Catalog) (reg : Reg)
    (conn : Connection) : List HNode :=
  (conn.exchanges.map (fun exch =>
    HNode.elem "div" (for_object "Exchange" "" exch.ident)
      (HTMLReport.render_notices cat reg exch.complaints
       ++ (match exch.request with
           | none => []
           | some s => HTMLReport.render_request cat reg s)
       ++ ((exch.responses.getD []).map (HTMLReport.render_response cat reg)).flatten)))
  ++ (if conn.unparsed_inbound.isEmpty then []
      else [.elem "p" [("class", "unparsed inbound")]
             [.text (toString conn.unparsed_inbound.length ++
                     " unparsed bytes remaining on the request stream")]])
  ++ (if conn.unparsed_outbound.isEmpty then []
      else [.elem "p" [("class", "unparsed outbound")]
             [.text (toString conn.unparsed_outbound.length ++
                     " unparsed bytes remaining on the response stream")]])

/-- The head contents built by `HTMLReport.__init__`: charset meta,
stylesheet link, the two script includes. -/
def HTMLReport.headNodes : List HNode :=
  [.elem "meta" [("http-equiv", "Content-Type"),
                 ("content", "text/html; charset=utf-8")] [],
   .elem "link" [("rel", "stylesheet"), ("href", "report.css"), ("type", "text/css")] [],
   .elem "script" [("src", "https://code.jquery.com/jquery-1.11.3.js"),
                   ("type", "text/javascript")] [],
   .elem "script" [("src", "report.js"), ("type", "text/javascript")] []]

/-- `HTMLReport.render_all(connections)` followed by `dump()`: the whole
document tree (title, head contents, one div per connection, with the
`Connection <i>` heading only when there is more than one connection). -/
def HTMLReport.render_all (cat : Catalog) (reg : Reg)
    (conns : List Connection) : HNode :=
  .elem "html" []
    [.elem "head" [] (.elem "title" [] [.text "HTTPolice report"] :: HTMLReport.headNodes),
     .elem "body" []
       (conns.enum.map (fun p =>
         HNode.elem "div" (for_object "Connection" "" p.2.ident)
           ((if 1 < conns.length
             then [HNode.elem "h1" [] [.text ("Connection " ++ toString (p.1 + 1))]]
             else [])
            ++ HTMLReport.render_connection cat reg p.2)))]

/-! ## Spec-side definitions and concrete fixtures

The `*_spec_*` definitions below follow the words of the specification
(not the source); they exist to be compared against the source-derived
definitions above.  The fixtures are concrete report trees used by the
witnesses and counterexamples. -/

/-- The separator discipline claimed for `write_more`: all written strings
joined by exactly one separator between consecutive writes, with no
leading separator.  Follows the spec's words. -/
def joined_with_sep : List String → String
  | [] => ""
  | s :: rest => rest.foldl (fun acc t => acc ++ "\n" ++ t) s

/-- The bibliographic element a `Citation` renders in hypertext mode. -/
def citeElem (info : CitInfo) : HNode :=
  .elem "cite" [] [.elem "a" [("href", info.url), ("target", "_blank")] [.text info.text]]

/-- The hypertext `Citation` rendering order claimed by the spec: quoted
contents first, then the bibliographic link.  Follows the spec's words,
for comparison with `piece_to_html`. -/
def citation_html_spec_order (reg : Reg) (cs : List Piece) (info : CitInfo) : List HNode :=
  (if cs.isEmpty then []
   else [.elem "q" [("cite", info.url)] (pieces_to_html reg cs),
         .elem "span" [] [.text ": "]])
  ++ [citeElem info]

/-- ASCII text as a byte string. -/
def sbytes (s : String) : List Nat := s.data.map Char.toNat

/-- A registry with no known citations or titles. -/
def reg0 : Reg := ⟨fun _ => none, fun _ => none⟩

/-- The single notice used by the concrete scenarios. -/
def c1_notice : Notice := ⟨1000, "error", "E", [.plain "Bad response"], []⟩

/-- A catalog mapping every id to that notice. -/
def cat0 : Catalog := fun _ => c1_notice

/-- A message with no headers, no body and no complaints. -/
def emptyMsg (i : Nat) : Msg :=
  ⟨i, [], none, .absent, .absent, false, false, none, [], none, none⟩

/-- C1 scenario: a parseable GET request with two header entries and no
body. -/
def c1_request : Request :=
  ⟨{ emptyMsg 1 with header_entries :=
      [⟨10, ⟨"FieldName", "Host", 11⟩, ⟨12, sbytes "example.com"⟩⟩,
       ⟨13, ⟨"FieldName", "User-Agent", 14⟩, ⟨15, sbytes "demo"⟩⟩] },
   ⟨"Method", "GET", 2⟩, ⟨"str", "/", 3⟩, ⟨"HTTPVersion", "HTTP/1.1", 4⟩⟩

/-- C1 scenario: a 200 response with exactly one notice attached to it. -/
def c1_response : Response :=
  ⟨{ emptyMsg 20 with complaints := some [1000], collected_complaints := some [1000] },
   ⟨"HTTPVersion", "HTTP/1.1", 21⟩, ⟨"StatusCode", "200", 22⟩, ⟨23, sbytes "OK"⟩⟩

/-- C1 scenario: one exchange holding the request and the response. -/
def c1_exchange : Exchange := ⟨30, some (.ok c1_request), some [.ok c1_response], none⟩

/-- C1 scenario: one connection with that one exchange. -/
def c1_connection : Connection := ⟨31, [c1_exchange], [], []⟩

/-- The text the renderer actually produces for the C1 scenario. -/
def c1_actual : String :=
  (TextReport.render_connection cat0 TextReport.fresh c1_connection).out

/-- The output the claim's ordering would produce: the same sink
operations with the same strings, but with the notice written immediately
after the separator, before the request line.  Follows the claim's words. -/
def c1_claimed : String :=
  (((((TextReport.fresh.write_more "================================\n").write_more
        (notice_to_text c1_notice)).write_more
        ">> GET / HTTP/1.1\n").write
        "++ Host: example.com\n").write
        "++ User-Agent: demo\n").write_more "<< HTTP/1.1 200 OK\n" |>.out

/-- C7 scenario: an exchange whose request slot is the unparseable
sentinel, in a connection of its own. -/
def c7_connection : Connection := ⟨50, [⟨51, some .unparseable, none, none⟩], [], []⟩

/-- C4 scenario: a 6000-byte ASCII body (all `a`), UTF-8, no announced
transfer or content encodings. -/
def c4_msg : Msg :=
  { emptyMsg 40 with body := .bytes ⟨41, List.replicate 6000 0x61⟩,
                     decoded_body := .bytes ⟨42, List.replicate 6000 0x61⟩ }

/-- Replace the declared charset of a message. -/
def msgWithCharset (m : Msg) (c : String) : Msg := { m with body_charset := some c }

/-- C5 scenario: a small body declaring the unknown charset `bogus-xyz`. -/
def c5_msg : Msg :=
  { emptyMsg 45 with body := .bytes ⟨46, sbytes "hi"⟩,
                     decoded_body := .bytes ⟨47, sbytes "hi"⟩,
                     body_charset := some "bogus-xyz" }

/-- C9 scenario: a header entry whose raw value is the UTF-8 encoding of
`é` (bytes `C3 A9`). -/
def c9_entry : HeaderEntry := ⟨70, ⟨"FieldName", "X-Name", 71⟩, ⟨72, [0xC3, 0xA9]⟩⟩

/-- C9 scenario: a message carrying that entry and no annotations. -/
def c9_msg : Msg := { emptyMsg 73 with header_entries := [c9_entry] }

/-- Remove the body of a message (make it Python `None`). -/
def msgNoBody (m : Msg) : Msg := { m with body := .absent }

/-- A decoded-body slot consistent with an empty raw body: absent,
unparseable, or empty bytes. -/
def decodedConsistentWithEmpty (v : BodyVal) : Prop :=
  ∀ b, v = BodyVal.bytes b → b.bytes = []

/-- C10 scenario: a message whose body is present but empty. -/
def c10_msg : Msg := { emptyMsg 60 with body := .bytes ⟨61, []⟩ }

/-- C2 scenario: a concrete bibliographic info object. -/
def c2_info : CitInfo := ⟨"RFC 7230", "http://example.net/rfc7230"⟩

/-! ## Helper lemmas -/

theorem char_toNat_ofNat (n : Nat) (h : n.isValidChar) : (Char.ofNat n).toNat = n := by
  simp [Char.ofNat, h, Char.ofNatAux, Char.toNat, UInt32.toNat, BitVec.toNat_ofNatLt]

theorem write_more_of_written (st : TextReport) (s : String) (h : st.written = true) :
    st.write_more s = ⟨st.out ++ "\n" ++ s, true⟩ := by
  simp [TextReport.write_more, TextReport.write, h]

theorem foldl_write_more_written (ss : List String) :
    ∀ st : TextReport, st.written = true →
      (ss.foldl TextReport.write_more st).out
        = ss.foldl (fun acc t => acc ++ "\n" ++ t) st.out := by
  induction ss with
  | nil => intro st _; rfl
  | cons s rest ih =>
    intro st h
    show (rest.foldl TextReport.write_more (st.write_more s)).out = _
    rw [write_more_of_written st s h, ih ⟨st.out ++ "\n" ++ s, true⟩ rfl]
    rfl

/-! ## The claims -/

/-- **C3**: `write_more` never emits a separator before the first written
string and never two consecutive separators: a sequence of `write_more`
calls on a fresh text report produces exactly the written strings joined
by single separators; in particular writing `"A"` then `"B"` produces
exactly `"A\nB"`. -/
theorem c3_write_more_separators :
    (∀ ss : List String,
       (ss.foldl TextReport.write_more TextReport.fresh).out = joined_with_sep ss)
    ∧ ((TextReport.fresh.write_more "A").write_more "B").out = "A\nB" := by
  constructor
  · intro ss
    cases ss with
    | nil => rfl
    | cons s rest =>
      show (rest.foldl TextReport.write_more (TextReport.fresh.write_more s)).out = _
      have h1 : TextReport.fresh.write_more s = ⟨s, true⟩ := by
        simp [TextReport.fresh, TextReport.write_more, TextReport.write]
      rw [h1, foldl_write_more_written rest ⟨s, true⟩ rfl]
      rfl
  · rfl

theorem reference_targets_list_eq (xs : List RVal) :
    reference_targets_list xs = (xs.map reference_targets).flatten := by
  induction xs with
  | nil => rfl
  | cons x xs ih => simp [reference_targets_list, ih]

/-- **C6**: `reference_targets` is a homomorphism over sequences (a list
value yields the concatenation over its elements in order), a
header-aggregate value yields one anchor per contributing entry in entry
order, any other value yields the singleton of its own anchor; a
two-element list of plain objects yields exactly their two anchors in
list order. -/
theorem c6_reference_targets_hom :
    (∀ items : List RVal,
       reference_targets (.seq items) = (items.map reference_targets).flatten)
    ∧ (∀ es : List Nat,
       reference_targets (.headerView es) = es.map (fun e => "#" ++ toString e))
    ∧ (∀ i : Nat, reference_targets (.atom i) = ["#" ++ toString i])
    ∧ (∀ a b : Nat,
       reference_targets (.seq [.atom a, .atom b])
         = ["#" ++ toString a, "#" ++ toString b]) := by
  refine ⟨fun items => ?_, fun es => rfl, fun i => rfl, fun a b => rfl⟩
  rw [show reference_targets (.seq items) = reference_targets_list items from rfl,
      reference_targets_list_eq]

/-- **C7**: an unparseable request slot is handled by the explicit
sentinel check in `render_unparseable`: it renders as the single
`-- (unparseable)` marker (written through the separator-aware sink) with
no request line and no header lines, as the concrete one-exchange
connection output shows. -/
theorem c7_unparseable_request_marker :
    (∀ (cat : Catalog) (st : TextReport),
       TextReport.render_request_slot cat st (some .unparseable)
         = st.write_more "\n-- (unparseable)\n")
    ∧ (TextReport.render_connection cat0 TextReport.fresh c7_connection).out
         = "================================\n\n\n-- (unparseable)\n" :=
  ⟨fun _ _ => rfl, rfl⟩

/-- **C8**: rendering the same report tree twice through fresh,
independent renderer instances of the same backend yields identical
output for both backends: both renderers are pure functions of the input
tree (object identities included), so equal inputs give byte-identical
output. -/
theorem c8_deterministic_rendering :
    ∀ (cat : Catalog) (reg : Reg) (conns : List Connection) (st1 st2 : TextReport),
      st1 = TextReport.fresh → st2 = TextReport.fresh →
      (TextReport.render_all cat st1 conns).out = (TextReport.render_all cat st2 conns).out
      ∧ HTMLReport.render_all cat reg conns = HTMLReport.render_all cat reg conns := by
  intro cat reg conns st1 st2 h1 h2
  subst h1; subst h2
  exact ⟨rfl, rfl⟩

/-- Witness for C8: two fresh text renderers and two identical hypertext
renders of the concrete one-exchange report agree. -/
theorem c8_deterministic_rendering_witness :
    (TextReport.render_all cat0 TextReport.fresh [c1_connection]).out
      = (TextReport.render_all cat0 TextReport.fresh [c1_connection]).out
    ∧ HTMLReport.render_all cat0 reg0 [c1_connection]
      = HTMLReport.render_all cat0 reg0 [c1_connection] :=
  c8_deterministic_rendering cat0 reg0 [c1_connection] _ _ rfl rfl

/-- **C1** (counterexample): with the single notice attached to the
response, the claimed order — separator, notice line, request line,
header lines, status line — is not what the renderer produces: the
rendered text differs from the output the claimed order would give
(the notice is rendered after the status line, not before the request
line). -/
theorem c1_order_counterexample :
    c1_claimed = "================================\n\n**** 1000 E    Bad response\n\n\n>> GET / HTTP/1.1\n++ Host: example.com\n++ User-Agent: demo\n\n<< HTTP/1.1 200 OK\n"
    ∧ c1_actual ≠ c1_claimed :=
  ⟨rfl, by decide⟩

/-- **C1** (amended): for one connection with one exchange whose request
is a parseable GET with two header entries and no body, and one 200
response with exactly one notice attached to it, the text renderer emits,
in this order: the exchange separator line, the `>> GET ... HTTP/1.1`
request line, the two `++` header lines, the `<< HTTP/1.1 200 ...` status
line, and then the `**** <id> ...` notice line. -/
theorem c1_text_render_order :
    c1_actual = "================================\n\n>> GET / HTTP/1.1\n++ Host: example.com\n++ User-Agent: demo\n\n<< HTTP/1.1 200 OK\n\n**** 1000 E    Bad response\n\n" :=
  rfl

/-- **C2** (counterexample): for a citation with non-empty quoted
contents the hypertext backend does not render the quoted contents first:
it emits the bibliographic cite element first and the quote after it, so
its output differs from the spec-order (quote-first) rendering. -/
theorem c2_citation_counterexample :
    piece_to_html reg0 (.citation [.plain "hello"] c2_info)
      = [citeElem c2_info, .elem "span" [] [.text ": "],
         .elem "q" [("cite", c2_info.url)] [.elem "span" [] [.text "hello"]]]
    ∧ piece_to_html reg0 (.citation [.plain "hello"] c2_info)
        ≠ citation_html_spec_order reg0 [.plain "hello"] c2_info :=
  ⟨rfl, fun h => absurd (congrArg (List.map HNode.tagOf) h) (by decide)⟩

/-- **C2** (amended): in text mode a citation renders the collapsed,
stripped quote first, followed by the bibliographic part, and only the
bibliographic part when the rendered quote is empty; in hypertext mode
the bibliographic cite/link element comes first, followed by the quoted
contents, and only the bibliographic element when the contents list is
empty. -/
theorem c2_citation_order :
    ∀ (reg : Reg) (info : CitInfo) (cs : List Piece),
      (cs ≠ [] → piece_to_html reg (.citation cs info)
        = [citeElem info, .elem "span" [] [.text ": "],
           .elem "q" [("cite", info.url)] (pieces_to_html reg cs)])
      ∧ piece_to_html reg (.citation [] info) = [citeElem info]
      ∧ piece_to_text (.citation [] info) = info.text
      ∧ (collapseWs (pyStrip (pieces_to_text cs)) ≠ "" →
           piece_to_text (.citation cs info)
             = "“" ++ collapseWs (pyStrip (pieces_to_text cs)) ++ "” (" ++ info.text ++ ")")
      ∧ (collapseWs (pyStrip (pieces_to_text cs)) = "" →
           piece_to_text (.citation cs info) = info.text) := by
  intro reg info cs
  have hval : piece_to_text (.citation cs info)
      = if collapseWs (pyStrip (pieces_to_text cs)) ≠ "" then
          "“" ++ collapseWs (pyStrip (pieces_to_text cs)) ++ "” (" ++ info.text ++ ")"
        else info.text := rfl
  refine ⟨fun h => ?_, rfl, rfl, fun h => ?_, fun h => ?_⟩
  · cases cs with
    | nil => exact absurd rfl h
    | cons p ps => rfl
  · rw [hval, if_pos h]
  · rw [hval, if_neg (by simp [h])]

/-- Witness for C2 (amended): evaluated at the concrete citation with
contents `hello` and at the empty-contents citation. -/
theorem c2_citation_order_witness :
    piece_to_html reg0 (.citation [.plain "hello"] c2_info)
      = [citeElem c2_info, .elem "span" [] [.text ": "],
         .elem "q" [("cite", c2_info.url)] (pieces_to_html reg0 [.plain "hello"])]
    ∧ piece_to_text (.citation [.plain "hello"] c2_info)
      = "“" ++ collapseWs (pyStrip (pieces_to_text [.plain "hello"])) ++ "” ("
          ++ c2_info.text ++ ")" :=
  ⟨(c2_citation_order reg0 c2_info [.plain "hello"]).1 (by simp),
   (c2_citation_order reg0 c2_info [.plain "hello"]).2.2.2.1 (by decide)⟩

/-- **C9**: the text renderer's `++ NAME: VALUE` line decodes the raw
value bytes as ASCII with undecodable bytes dropped, so every character
of the decoded value is in the ASCII range; the hypertext renderer
decodes the same bytes as UTF-8 (dropping undecodable bytes), so on the
value bytes `C3 A9` it shows `é` where the text renderer shows nothing. -/
theorem c9_header_value_decoding :
    (∀ (bs : List Nat) (c : Char), c ∈ asciiDecodeIgnore bs → c.toNat < 128)
    ∧ (∀ e : HeaderEntry,
        header_line_text e
          = "++ " ++ e.name.text ++ ": "
              ++ String.mk (asciiDecodeIgnore e.value.bytes) ++ "\n")
    ∧ HTMLReport.header_value_html reg0 c9_msg false 0 c9_entry
        = [.elem "span" [] [.text "é"]]
    ∧ String.mk (asciiDecodeIgnore c9_entry.value.bytes) = "" := by
  refine ⟨?_, fun e => rfl, rfl, rfl⟩
  intro bs c hc
  rw [asciiDecodeIgnore, List.mem_filterMap] at hc
  obtain ⟨b, _, hb⟩ := hc
  by_cases hlt : b < 128
  · rw [if_pos hlt] at hb
    obtain rfl : Char.ofNat b = c := Option.some.inj hb
    rw [char_toNat_ofNat b (Or.inl (by omega))]
    exact hlt
  · rw [if_neg hlt] at hb
    exact absurd hb (by simp)

/-- Witness for C9: the ASCII-range bound evaluated at the byte `65`. -/
theorem c9_header_value_decoding_witness :
    'A' ∈ asciiDecodeIgnore [65] ∧ 'A'.toNat < 128 :=
  ⟨by decide, c9_header_value_decoding.1 [65] 'A' (by decide)⟩

theorem utf8Decode_replicate_a (er : List Char) (n : Nat) :
    utf8Decode er (List.replicate n 0x61) = List.replicate n 'a' := by
  induction n with
  | zero => rfl
  | succ n ih =>
    rw [List.replicate_succ, List.replicate_succ, utf8Decode.eq_def]
    norm_num
    rw [ih]

theorem has_nonprintable_replicate_a (n : Nat) :
    has_nonprintable (List.replicate n 'a') = false := by
  unfold has_nonprintable
  induction n with
  | zero => rfl
  | succ n ih => rw [List.replicate_succ, List.any_cons, ih]; rfl

theorem resolvedCodec_decode_nil (m : Msg) : (resolvedCodec m).decode [] = [] := by
  unfold resolvedCodec codecsLookup
  simp only []
  split_ifs <;> rfl

theorem decoding_append_head (s : String) :
    ("decoding from " ++ s).data.head? = some 'd' := by
  rw [String.data_append]; rfl

theorem decoding_ne_rte (s : String) :
    "decoding from " ++ s ≠ "removing Transfer-Encoding" := fun h => by
  have h1 := decoding_append_head s
  rw [h] at h1
  exact absurd h1 (by decide)

theorem decoding_ne_rce (s : String) :
    "decoding from " ++ s ≠ "removing Content-Encoding" := fun h => by
  have h1 := decoding_append_head s
  rw [h] at h1
  exact absurd h1 (by decide)

theorem decoding_ne_npr (s : String) :
    "decoding from " ++ s ≠ "replacing non-printable characters with the � sign" :=
  fun h => by
  have h1 := decoding_append_head s
  rw [h] at h1
  exact absurd h1 (by decide)

theorem decoding_ne_taking (s : String) :
    "decoding from " ++ s ≠ "taking the first 5000 characters" := fun h => by
  have h1 := decoding_append_head s
  rw [h] at h1
  exact absurd h1 (by decide)

theorem displayable_decoded_shape (m : Msg) (bs : List Nat) :
    ∀ t ∈ (displayable_decoded m bs).2,
      t = "removing Transfer-Encoding" ∨ t = "removing Content-Encoding"
      ∨ t = "decoding from " ++ charsetOf m
      ∨ t = "replacing non-printable characters with the � sign" := by
  intro t ht
  unfold displayable_decoded at ht
  cases hdb : m.decoded_body with
  | bytes db =>
    simp only [hdb] at ht
    split_ifs at ht <;> simp_all [List.mem_append] <;> tauto
  | absent =>
    simp only [hdb] at ht
    split_ifs at ht <;> simp_all [List.mem_append]
    tauto
  | unparseable =>
    simp only [hdb] at ht
    split_ifs at ht <;> simp_all [List.mem_append]
    tauto

theorem taking_not_mem_displayable_decoded (m : Msg) (bs : List Nat) :
    "taking the first 5000 characters" ∉ (displayable_decoded m bs).2 := by
  intro hmem
  rcases displayable_decoded_shape m bs _ hmem with h | h | h | h
  · exact absurd h (by decide)
  · exact absurd h (by decide)
  · have h1 := decoding_append_head (charsetOf m)
    rw [← h] at h1
    exact absurd h1 (by decide)
  · exact absurd h (by decide)

/-- The decode stage for a message with a decoded body, no announced
encodings and a UTF-8-resolved codec: plain UTF-8 decoding with no
transform notes (when the decoded text is printable). -/
theorem displayable_decoded_plain (m : Msg) (db : BytesObj) (bs : List Nat)
    (e1 : m.decoded_body = .bytes db) (e2 : m.transfer_coding = false)
    (e3 : m.content_coding = false) (e4 : resolvedCodec m = utf8Codec)
    (e7 : has_nonprintable (utf8DecodeReplace db.bytes) = false) :
    displayable_decoded m bs = (utf8DecodeReplace db.bytes, []) := by
  unfold displayable_decoded
  simp only [e1, e2, e3, e4]
  simp [e7, show utf8Codec.decode = utf8DecodeReplace from rfl,
        show utf8Codec.name = "utf-8" from rfl]

/-- **C4**: for a 6000-byte ASCII body with UTF-8 (or no declared)
charset and no announced encodings, `displayable_body` returns exactly
the first 5000 characters of the decoded text with the one-element
transform list `["taking the first 5000 characters"]`; in general the
returned text never exceeds 5000 code points and the truncation note is
appended exactly when the pre-truncation text exceeded the limit. -/
theorem c4_body_truncation :
    displayable_body c4_msg
      = (.text (List.replicate 5000 'a'), ["taking the first 5000 characters"])
    ∧ (∀ (m : Msg) (b : BytesObj), m.body = .bytes b →
        (∃ cs, (displayable_body m).1 = Disp.text cs ∧ cs.length ≤ 5000)
        ∧ ("taking the first 5000 characters" ∈ (displayable_body m).2
             ↔ 5000 < (displayable_decoded m b.bytes).1.length)) := by
  constructor
  · have edec : utf8DecodeReplace (List.replicate 6000 0x61) = List.replicate 6000 'a' :=
      utf8Decode_replicate_a _ 6000
    have hdd : displayable_decoded c4_msg (List.replicate 6000 0x61)
        = (List.replicate 6000 'a', []) := by
      rw [displayable_decoded_plain c4_msg ⟨42, List.replicate 6000 0x61⟩ _ rfl rfl rfl rfl
            (by rw [show utf8DecodeReplace (BytesObj.mk 42 (List.replicate 6000 0x61)).bytes
                      = List.replicate 6000 'a' from edec]
                exact has_nonprintable_replicate_a 6000)]
      rw [show utf8DecodeReplace (BytesObj.mk 42 (List.replicate 6000 0x61)).bytes
            = List.replicate 6000 'a' from edec]
    have hb : c4_msg.body = BodyVal.bytes ⟨41, List.replicate 6000 0x61⟩ := rfl
    simp only [displayable_body, hb, hdd]
    rw [if_pos (show (5000:Nat) < (List.replicate 6000 'a').length by
          rw [List.length_replicate]; omega)]
    rw [List.take_replicate, show min 5000 6000 = 5000 from by omega, List.nil_append]
  · intro m b hb
    rcases hdd : displayable_decoded m b.bytes with ⟨r, ts⟩
    have hbody : displayable_body m
        = if 5000 < r.length then
            (.text (r.take 5000), ts ++ ["taking the first 5000 characters"])
          else (.text r, ts) := by
      simp only [displayable_body, hb, hdd]
    constructor
    · by_cases h5 : 5000 < r.length
      · refine ⟨r.take 5000, by rw [hbody, if_pos h5], ?_⟩
        rw [List.length_take]
        omega
      · exact ⟨r, by rw [hbody, if_neg h5], by omega⟩
    · rw [hbody]
      by_cases h5 : 5000 < r.length
      · rw [if_pos h5]
        exact ⟨fun _ => h5, fun _ => List.mem_append.mpr (Or.inr (by simp))⟩
      · rw [if_neg h5]
        have hnm := taking_not_mem_displayable_decoded m b.bytes
        rw [hdd] at hnm
        exact ⟨fun hm => absurd hm hnm, fun hh => absurd hh h5⟩

/-- Witness for C4's general bound: evaluated at the concrete 6000-byte
message. -/
theorem c4_body_truncation_witness :
    (∃ cs, (displayable_body c4_msg).1 = Disp.text cs ∧ cs.length ≤ 5000)
    ∧ ("taking the first 5000 characters" ∈ (displayable_body c4_msg).2
         ↔ 5000 < (displayable_decoded c4_msg
                     (BytesObj.mk 41 (List.replicate 6000 0x61)).bytes).1.length) :=
  c4_body_truncation.2 c4_msg ⟨41, List.replicate 6000 0x61⟩ rfl

theorem decoding_note_mem_iff (m : Msg) (bs : List Nat) (db : BytesObj)
    (hdec : m.decoded_body = .bytes db) :
    (("decoding from " ++ charsetOf m) ∈ (displayable_decoded m bs).2)
      ↔ (resolvedCodec m).name ≠ "utf-8" := by
  unfold displayable_decoded
  simp only [hdec]
  split_ifs <;>
    simp_all [List.mem_append, List.mem_singleton, decoding_ne_rte, decoding_ne_rce,
              decoding_ne_npr]

/-- **C5**: with a decoded body present, the charset resolution of
`displayable_body` is total: an unknown or unsupported declared charset
silently falls back to UTF-8 (the message is processed exactly as if
UTF-8 were declared), and a `decoding from <charset>` note appears in the
transforms exactly when the resolved codec differs from UTF-8. -/
theorem c5_charset_fallback :
    ∀ (m : Msg) (b db : BytesObj), m.body = .bytes b → m.decoded_body = .bytes db →
      (codecsLookup (charsetOf m) = none →
         displayable_body m = displayable_body (msgWithCharset m "UTF-8"))
      ∧ (("decoding from " ++ charsetOf m) ∈ (displayable_body m).2
           ↔ (resolvedCodec m).name ≠ "utf-8") := by
  intro m b db hb hdec
  constructor
  · intro hnone
    have e1 : resolvedCodec m = utf8Codec := by
      unfold resolvedCodec; rw [hnone]; rfl
    have e2 : resolvedCodec (msgWithCharset m "UTF-8") = utf8Codec := rfl
    have hdd : ∀ bs, displayable_decoded m bs
        = displayable_decoded (msgWithCharset m "UTF-8") bs := by
      intro bs
      unfold displayable_decoded
      have hdec2 : (msgWithCharset m "UTF-8").decoded_body = .bytes db := hdec
      simp only [hdec, hdec2, e1, e2]
      simp [show utf8Codec.name = "utf-8" from rfl,
            show (msgWithCharset m "UTF-8").transfer_coding = m.transfer_coding from rfl,
            show (msgWithCharset m "UTF-8").content_coding = m.content_coding from rfl]
    have hb2 : (msgWithCharset m "UTF-8").body = .bytes b := hb
    simp only [displayable_body, hb, hb2, hdd b.bytes]
  · rcases hdd : displayable_decoded m b.bytes with ⟨r, ts⟩
    have hiff := decoding_note_mem_iff m b.bytes db hdec
    rw [hdd] at hiff
    have hbody : displayable_body m
        = if 5000 < r.length then
            (.text (r.take 5000), ts ++ ["taking the first 5000 characters"])
          else (.text r, ts) := by
      simp only [displayable_body, hb, hdd]
    rw [hbody]
    by_cases h5 : 5000 < r.length
    · rw [if_pos h5]
      show _ ∈ ts ++ _ ↔ _
      rw [List.mem_append]
      constructor
      · rintro (hm | hm)
        · exact hiff.mp hm
        · exact absurd (List.mem_singleton.mp hm) (decoding_ne_taking (charsetOf m))
      · intro hn
        exact Or.inl (hiff.mpr hn)
    · rw [if_neg h5]
      exact hiff

/-- Witness for C5: the concrete message declaring charset `bogus-xyz` is
processed exactly as if UTF-8 were declared, and no decoding note
appears. -/
theorem c5_charset_fallback_witness :
    codecsLookup (charsetOf c5_msg) = none
    ∧ displayable_body c5_msg = displayable_body (msgWithCharset c5_msg "UTF-8")
    ∧ ("decoding from " ++ charsetOf c5_msg) ∉ (displayable_body c5_msg).2 :=
  ⟨rfl,
   (c5_charset_fallback c5_msg ⟨46, sbytes "hi"⟩ ⟨47, sbytes "hi"⟩ rfl rfl).1 rfl,
   fun hm => (c5_charset_fallback c5_msg ⟨46, sbytes "hi"⟩ ⟨47, sbytes "hi"⟩ rfl rfl).2.mp hm rfl⟩

/-- **C10**: a present-but-empty body is invisible in both renderers:
`displayable_body` yields the empty text (with whatever transform notes
accumulated), the text renderer emits no body-summary line, and the
hypertext renderer emits no payload-body block, so the rendered output
equals that of the same message with an absent body. -/
theorem c10_empty_body_invisible :
    ∀ (cat : Catalog) (reg : Reg) (st : TextReport) (m : Msg) (b : BytesObj),
      m.body = .bytes b → b.bytes = [] →
      decodedConsistentWithEmpty m.decoded_body →
      (displayable_body m).1 = .text []
      ∧ TextReport.render_message cat st m = TextReport.render_message cat st (msgNoBody m)
      ∧ HTMLReport.render_message reg m = HTMLReport.render_message reg (msgNoBody m) := by
  intro cat reg st m b hb hbe hcons
  have hdd1 : (displayable_decoded m b.bytes).1 = [] := by
    unfold displayable_decoded
    cases hdb : m.decoded_body with
    | bytes db =>
      have hdbe : db.bytes = [] := hcons db hdb
      simp [hdb, hdbe, resolvedCodec_decode_nil, has_nonprintable]
    | absent => simp [hdb, hbe, utf8DecodeReplace, utf8Decode, has_nonprintable]
    | unparseable => simp [hdb, hbe, utf8DecodeReplace, utf8Decode, has_nonprintable]
  rcases hdd : displayable_decoded m b.bytes with ⟨r, ts⟩
  have hr : r = [] := by rw [hdd] at hdd1; exact hdd1
  subst hr
  have hdispm : displayable_body m = (.text [], ts) := by
    simp only [displayable_body, hb, hdd]
    simp
  have hmnb : displayable_body (msgNoBody m) = (.absent, []) := by
    simp only [displayable_body, show (msgNoBody m).body = BodyVal.absent from rfl]
  refine ⟨by rw [hdispm], ?_, ?_⟩
  · unfold TextReport.render_message
    simp only [hb, show (msgNoBody m).body = BodyVal.absent from rfl, hbe]
    simp only [List.isEmpty_nil, if_true]
    rfl
  · unfold HTMLReport.render_message
    rw [hdispm, hmnb]
    simp only [List.isEmpty_nil, if_true, List.append_nil, List.nil_append]
    rfl

/-- Witness for C10: evaluated at the concrete message with a present,
empty body. -/
theorem c10_empty_body_invisible_witness :
    (displayable_body c10_msg).1 = .text []
    ∧ TextReport.render_message cat0 TextReport.fresh c10_msg
        = TextReport.render_message cat0 TextReport.fresh (msgNoBody c10_msg)
    ∧ HTMLReport.render_message reg0 c10_msg
        = HTMLReport.render_message reg0 (msgNoBody c10_msg) :=
  c10_empty_body_invisible cat0 reg0 TextReport.fresh c10_msg ⟨61, []⟩ rfl rfl
    (fun _ h => nomatch h)
